import Mathlib

/-!
# Verification of the StackedConnections data-to-geometry pipeline

Shallow embedding of `src/index.js` (class `StackedConnections`) of the
stacked-connections repository.  JavaScript numbers are modelled as exact
rationals (`ℚ`), JS objects with known shape as structures, JS `undefined`
and `null` as `Option`, and a thrown `TypeError` as `Except.error`.
JS object key order (`Object.keys`) is the insertion order of the backing
association list.
-/

namespace StackedConnections

/-- A JS object mapping item keys to numbers, in key insertion order. -/
abbrev Mapping := List (String × ℚ)

/-- One element of the raw `connections` array: `{source, target, focus}`. -/
structure Connection where
  source : String
  target : String
  focus : Option String
deriving DecidableEq

/-- The raw constructor argument (`this.dataSource`).  A JS object: the value
found at key `stacks` (if present), the value found at key `connections`
(if present), and the names of any other top-level keys.  This keeps the
top-level key count observable, which is all the code ever checks. -/
structure RawInput where
  stacksField : Option (List (String × Mapping))
  connectionsField : Option (List Connection)
  extraKeys : List String
deriving DecidableEq

/-- `Object.keys(this.dataSource).length`. -/
def RawInput.keyCount (r : RawInput) : Nat :=
  (if r.stacksField.isSome then 1 else 0) +
    (if r.connectionsField.isSome then 1 else 0) + r.extraKeys.length

/-- The only JS exception the embedded code can raise (`TypeError`, e.g. from
dereferencing `undefined`/`null` or iterating a non-iterable). -/
inductive JsErr
  | typeError
deriving DecidableEq

instance {ε α : Type} [DecidableEq ε] [DecidableEq α] : DecidableEq (Except ε α) :=
  fun a b =>
    match a, b with
    | .ok x, .ok y =>
        if h : x = y then .isTrue (by rw [h]) else
          .isFalse (by intro hc; injection hc; exact h (by assumption))
    | .ok _, .error _ => .isFalse (fun hc => Except.noConfusion hc)
    | .error _, .ok _ => .isFalse (fun hc => Except.noConfusion hc)
    | .error x, .error y =>
        if h : x = y then .isTrue (by rw [h]) else
          .isFalse (by intro hc; injection hc; exact h (by assumption))

/-- Dereference a possibly-`undefined` JS value: absent values raise `TypeError`. -/
def orThrow {α : Type} : Option α → Except JsErr α
  | some a => .ok a
  | none => .error .typeError

/-- `this.artboardUnit` in a non-browser environment (`typeof window === "undefined"`). -/
def artboardUnit : ℚ := 16

/-- `this.paddingAnnotations = this.artboardUnit * 2` (reserved header space). -/
def headerPad : ℚ := artboardUnit * 2

/-- The primary collation weight of an ASCII character under the default
(CLDR root) collation: letters compare case-insensitively, so the weight is
the lower-cased code point; digits keep their own code points, which places
them before all letters, as the root collation does. -/
def charPrimary (c : Char) : Nat := c.toLower.toNat

/-- The tertiary (case) collation weight of an ASCII character: lowercase
sorts before uppercase under the default collation. -/
def charTertiary (c : Char) : Nat := if c.isUpper then 1 else 0

/-- The primary weight sequence of a string. -/
def primaryKey (s : String) : List Nat := s.toList.map charPrimary

/-- The tertiary weight sequence of a string. -/
def tertiaryKey (s : String) : List Nat := s.toList.map charTertiary

/-- `a.localeCompare(b) ≤ 0` under the default locale, modelled for the
ASCII alphanumeric item keys this library works with, following the
documented ECMA-402 behaviour (the CLDR root collation, as ICU implements it
in Node and browsers): strings compare by their primary weight sequences
first — letters case-insensitively, digits before letters — and on a full
primary tie by the case (tertiary) sequence, lowercase before uppercase.
Note this differs from code-point order on mixed-case keys: code-point
order puts every uppercase letter before every lowercase one. -/
def localeLe (s t : String) : Prop :=
  primaryKey s < primaryKey t ∨
    (primaryKey s = primaryKey t ∧ tertiaryKey s ≤ tertiaryKey t)

instance decLocaleLe : ∀ s t, Decidable (localeLe s t) := fun s t =>
  inferInstanceAs (Decidable (primaryKey s < primaryKey t ∨
    (primaryKey s = primaryKey t ∧ tertiaryKey s ≤ tertiaryKey t)))

theorem localeLe_total (s t : String) : localeLe s t ∨ localeLe t s := by
  rcases lt_trichotomy (primaryKey s) (primaryKey t) with h | h | h
  · exact Or.inl (Or.inl h)
  · rcases le_total (tertiaryKey s) (tertiaryKey t) with h2 | h2
    · exact Or.inl (Or.inr ⟨h, h2⟩)
    · exact Or.inr (Or.inr ⟨h.symm, h2⟩)
  · exact Or.inr (Or.inl h)

theorem localeLe_trans {s t u : String} (h1 : localeLe s t) (h2 : localeLe t u) :
    localeLe s u := by
  rcases h1 with hp1 | ⟨he1, ht1⟩ <;> rcases h2 with hp2 | ⟨he2, ht2⟩
  · exact Or.inl (hp1.trans hp2)
  · exact Or.inl (he2 ▸ hp1)
  · exact Or.inl (by rw [he1]; exact hp2)
  · exact Or.inr ⟨he1.trans he2, ht1.trans ht2⟩

/-- The comparator of `generateStackLayout`,
`(a,b) => b.value - a.value || a.key.localeCompare(b.key)`, read as the
"comes no later than" relation: value descending, ties broken by key
ascending in the default-locale collation order of `localeCompare`
(see `localeLe`). -/
def sortRel (a b : String × ℚ) : Prop :=
  b.2 < a.2 ∨ (a.2 = b.2 ∧ localeLe a.1 b.1)

instance decSortRel : DecidableRel sortRel := fun a b =>
  inferInstanceAs (Decidable (b.2 < a.2 ∨ (a.2 = b.2 ∧ localeLe a.1 b.1)))

instance : IsTotal (String × ℚ) sortRel :=
  ⟨fun a b => by
    rcases lt_trichotomy a.2 b.2 with h | h | h
    · exact Or.inr (Or.inl h)
    · rcases localeLe_total a.1 b.1 with hk | hk
      · exact Or.inl (Or.inr ⟨h, hk⟩)
      · exact Or.inr (Or.inr ⟨h.symm, hk⟩)
    · exact Or.inl (Or.inl h)⟩

instance : IsTrans (String × ℚ) sortRel :=
  ⟨fun a b c hab hbc => by
    rcases hab with h1 | ⟨e1, k1⟩ <;> rcases hbc with h2 | ⟨e2, k2⟩
    · exact Or.inl (h2.trans h1)
    · exact Or.inl (e2 ▸ h1)
    · exact Or.inl (e1 ▸ h2)
    · exact Or.inr ⟨e1.trans e2, localeLe_trans k1 k2⟩⟩

/-- `Object.keys(data).map(d => ({key: d, value: data[d]})).sort(comparator)`:
the key/value pairs of one stack, sorted value-descending with key-ascending
tie-break.  ES2019 `Array.prototype.sort` is stable, as is insertion sort. -/
def sortedPairs (data : Mapping) : List (String × ℚ) :=
  List.insertionSort sortRel data

/-- The `.map(d => d.key)` projection: the sorted key sequence (`keysSorted`). -/
def keysSorted (data : Mapping) : List String :=
  (sortedPairs data).map Prod.fst

/-- One entry of a d3 stack series for a single datum: the item key, its
cumulative interval `[lo, hi]`, and its series index. -/
structure SeriesEntry where
  key : String
  lo : ℚ
  hi : ℚ
  index : Nat
deriving DecidableEq

/-- `d3.shape.stack().keys(keysSorted)([data])` over a single datum with the
default order and `offsetNone`: each key's interval starts where the previous
key's interval ended, and each series records its index. -/
def stackSeries (acc : ℚ) (idx : Nat) : List (String × ℚ) → List SeriesEntry
  | [] => []
  | (k, v) :: rest => ⟨k, acc, acc + v, idx⟩ :: stackSeries (acc + v) (idx + 1) rest

/-- `d3.scaleLinear().domain([0, total]).range([0, rangeHi])`, kept as data. -/
structure ScaleDesc where
  total : ℚ
  rangeHi : ℚ
deriving DecidableEq

/-- Application of the linear scale.  d3 maps a degenerate domain
(`total = 0`) to the midpoint of the range. -/
def scaleApply (s : ScaleDesc) (v : ℚ) : ℚ :=
  if s.total = 0 then s.rangeHi / 2 else v * s.rangeHi / s.total

/-- The value `generateStackLayout` returns for a non-empty mapping:
`{series, scale, totalValues}`. -/
structure StackLayoutRes where
  series : List SeriesEntry
  scale : ScaleDesc
  totalValues : ℚ
deriving DecidableEq

/-- `generateStackLayout(data)` (src/index.js lines 515-556): `null` for an
absent or empty mapping, otherwise the sorted cumulative series, the vertical
scale with range `[0, height - pad*keyCount - paddingAnnotations]`, and the
value total `sum(Object.keys(data).map(d => data[d]))`. -/
def generateStackLayout (data : Mapping) (pad H : ℚ) : Option StackLayoutRes :=
  if data = [] then none
  else
    let ks := sortedPairs data
    let dataValues := (data.map Prod.snd).sum
    let paddingValues := pad * (ks.length : ℚ)
    some
      { series := stackSeries 0 0 ks
        scale := { total := dataValues, rangeHi := H - paddingValues - headerPad }
        totalValues := dataValues }

/-- One element of the derived per-stack array built by `get data`
(src/index.js lines 86-92), in the field order of the object literal. -/
structure StackResult where
  connections : Option (List Connection)
  key : String
  scale : Option ScaleDesc
  series : List SeriesEntry
  totalValues : ℚ
deriving DecidableEq

/-- The body of the `get data` loop for one stack entry `s`:
`key = Object.keys(s)[0]`, `stacked = generateStackLayout(s[key])`, then the
object literal.  When `stacked` is non-null the `connections` field
dereferences `this.dataSource.connections` (a `TypeError` when that top-level
field is absent). -/
def processStack (r : RawInput) (pad H : ℚ) (s : String × Mapping) :
    Except JsErr StackResult :=
  match generateStackLayout s.2 pad H with
  | some st => do
      let conns ← orThrow r.connectionsField
      pure
        { connections :=
            some (conns.filter (fun d => (st.series.map (·.key)).contains d.source))
          key := s.1
          scale := some st.scale
          series := st.series
          totalValues := st.totalValues }
  | none =>
      pure { connections := none, key := s.1, scale := none, series := [], totalValues := 0 }

/-- The `for (const s of this.dataSource.stacks)` loop: results are pushed in
order; a thrown error aborts the whole loop. -/
def getDataLoop (r : RawInput) (pad H : ℚ) :
    List (String × Mapping) → Except JsErr (List StackResult)
  | [] => .ok []
  | s :: rest => do
      let one ← processStack r pad H s
      let more ← getDataLoop r pad H rest
      pure (one :: more)

/-- `get data()` (src/index.js lines 68-100).  Validity is decided by
`this.dataSource && Object.keys(this.dataSource).length == 2`; on failure the
`null` sentinel is returned.  On success the loop iterates
`this.dataSource.stacks` (a `TypeError` when that field is absent). -/
def getData (dataSource : Option RawInput) (pad H : ℚ) :
    Except JsErr (Option (List StackResult)) :=
  match dataSource with
  | none => .ok none
  | some r =>
    if r.keyCount = 2 then do
      let ss ← orThrow r.stacksField
      let res ← getDataLoop r pad H ss
      pure (some res)
    else .ok none

/-- `d.split(".")` at the last array position (JS split by a one-character
separator, modelled on the character list). -/
def splitOnChar (c : Char) : List Char → List (List Char)
  | [] => [[]]
  | x :: xs =>
    let r := splitOnChar c xs
    if x = c then [] :: r
    else
      match r with
      | [] => [[x]]
      | h :: t => (x :: h) :: t

/-- `p.split(".")[p.split(".").length - 1]`: the terminal dotted segment. -/
def lastSegment (s : String) : String :=
  String.mk ((splitOnChar (Char.ofNat 46) s.toList).getLastD [])

/-- JS `big.includes(small)`: substring containment. -/
def strHasSub (big small : String) : Bool :=
  big.toList.tails.any (fun t => small.toList.isPrefixOf t)

/-- The edge-accumulation phase of `generateConnectionPaths`
(src/index.js lines 311-343): for each stack in order and each of its
connections, append `.target` to every accumulated path whose terminal
segment equals the source, or start a fresh `source.target` path.
`d.connections.forEach` on the `null` connections of an unconditioned stack
raises a `TypeError`. -/
def accumulatePaths (sts : List StackResult) : Except JsErr (List String) :=
  sts.foldlM
    (fun acc st => do
      let conns ← orThrow st.connections
      pure
        (conns.foldl
          (fun acc2 dt =>
            let segmentsWithSource :=
              acc2.filter (fun p => decide (lastSegment p = dt.source))
            if segmentsWithSource.length > 0 then
              acc2 ++ segmentsWithSource.map (fun s => s ++ "." ++ dt.target)
            else
              acc2 ++ [dt.source ++ "." ++ dt.target])
          acc))
    []

/-- The pruning phase of `generateConnectionPaths` (src/index.js lines
345-356), transcribed exactly: for each path `d` in the accumulated list, every
path `dt` of the same list with `dt.includes(d) && dt.length > d.length` is
pushed to the pruned result. -/
def prunePaths (result : List String) : List String :=
  result.foldl
    (fun pruned d =>
      pruned ++ result.filter (fun dt => strHasSub dt d && decide (d.length < dt.length)))
    []

/-- `generateConnectionPaths(stacks)` (src/index.js lines 309-358). -/
def generateConnectionPaths (sts : List StackResult) :
    Except JsErr (List String) := do
  let result ← accumulatePaths sts
  pure (prunePaths result)

/-- The padding fallback of the constructor (src/index.js lines 44-55):
keep the requested padding `P` when `P * (maxKeyCount - 1) < height`,
otherwise replace it by `(height / maxKeyCount) * 0.2`. -/
def effectivePadding (P H : ℚ) (M : Nat) : ℚ :=
  if P * ((M : ℚ) - 1) < H then P else H / (M : ℚ) * (0.2 : ℚ)

/-- `max(stacks.map(d => Object.keys(d[Object.keys(d)[0]]).length))`
(d3 `max`, which is `undefined` on an empty array). -/
def maxKeyCount (ss : List (String × Mapping)) : Option Nat :=
  match ss.map (fun s => s.2.length) with
  | [] => none
  | x :: xs => some (xs.foldl max x)

/-- The observable state a successful constructor run leaves behind. -/
structure Ctor where
  paddingStackCell : ℚ
  «stacks» : List StackResult
  connectionPaths : List String
deriving DecidableEq

/-- The constructor (src/index.js lines 19-62) with data-dependent steps in
source order: line 42 dereferences `this.dataSource.stacks` (throwing when
the data source or its `stacks` field is absent), lines 44-55 resolve the
effective padding once globally, line 58 runs `get data`, and line 60 calls
`generateConnectionPaths(this.stacks)` (`null.forEach` throws when `get data`
returned the sentinel).  When the stacks array is empty, `maxKeyCount` is
`undefined` and the JS padding arithmetic yields `NaN`; that value is never
consumed by any later observable step (the data loop is empty), so it is
modelled by an arbitrary rational. -/
def construct (dataSource : Option RawInput) (P H : ℚ) : Except JsErr Ctor := do
  let r ← orThrow dataSource
  let ss ← orThrow r.stacksField
  let pad :=
    match maxKeyCount ss with
    | some M => effectivePadding P H M
    | none => 0
  let st ← getData (some r) pad H
  let sts ← orThrow st
  let paths ← generateConnectionPaths sts
  pure { paddingStackCell := pad, «stacks» := sts, connectionPaths := paths }

/-- `configurationDimension.height` default (600). -/
def defaultHeight : ℚ := 600

/-- `configurationLayout.paddingStackCell` default (`600 * 0.02 = 12`). -/
def defaultPaddingStackCell : ℚ := defaultHeight * (0.02 : ℚ)

/-- One d3-path drawing command of the connector outline. -/
inductive PathCmd
  | moveTo (x y : ℚ)
  | bezierCurveTo (c1x c1y c2x c2y x y : ℚ)
  | lineTo (x y : ℚ)
  | closePath
deriving DecidableEq

/-- Is the command a `moveTo`? -/
def PathCmd.isMove : PathCmd → Bool
  | .moveTo _ _ => true
  | _ => false

/-- Is the command a `closePath`? -/
def PathCmd.isClose : PathCmd → Bool
  | .closePath => true
  | _ => false

/-- The `"d"`-attribute callback of `generateConnections` (src/index.js lines
383-421) for one connection `d`, parametrised by the horizontal band lookup
`hx` (`this.horizontalScale`), `barWidth` (its bandwidth) and `step` (its
inter-band step), in JS evaluation order: `series.filter(...)[0]` followed by
the `[0]` element access (a `TypeError` when the key is absent), then the
vertical scale calls (a `TypeError` when the stack carries the `null`
sentinel scale). -/
def connectionGeom (sourceStack targetStack : StackResult) (hx : String → ℚ)
    (barWidth step pad : ℚ) (d : Connection) : Except JsErr (List PathCmd) := do
  let sourceStackLayout ← orThrow (sourceStack.series.find? (fun x => x.key == d.source))
  let targetStackLayout ← orThrow (targetStack.series.find? (fun x => x.key == d.target))
  let sScale ← orThrow sourceStack.scale
  let tScale ← orThrow targetStack.scale
  let sourceX := hx sourceStack.key + barWidth
  let sourceY0 := scaleApply sScale sourceStackLayout.lo + pad * (sourceStackLayout.index : ℚ)
  let sourceY1 := scaleApply sScale sourceStackLayout.hi + pad * (sourceStackLayout.index : ℚ)
  let targetX := hx targetStack.key
  let targetY0 := scaleApply tScale targetStackLayout.lo + pad * (targetStackLayout.index : ℚ)
  let targetY1 := scaleApply tScale targetStackLayout.hi + pad * (targetStackLayout.index : ℚ)
  pure
    [ .moveTo sourceX sourceY0
    , .bezierCurveTo (sourceX + step / 2) sourceY0 (targetX - step / 2) targetY0 targetX targetY0
    , .lineTo targetX targetY1
    , .bezierCurveTo (targetX - step / 2) targetY0 (sourceX + step / 2) sourceY1 sourceX sourceY1
    , .closePath ]

/-- `generateConnections` over the whole visualization (src/index.js lines
365-424): every adjacent stack pair is bound to the source stack's connection
list (`selection.data` throws on the `null` sentinel) and each edge's geometry
callback runs in order.  A callback exception propagates out of the d3
`each`/`attr` traversal, so a single failing edge aborts the traversal. -/
def renderConnections (sts : List StackResult) (hx : String → ℚ)
    (barWidth step pad : ℚ) : Except JsErr (List (List (List PathCmd))) :=
  (sts.zip sts.tail).mapM
    (fun p => do
      let conns ← orThrow p.1.connections
      conns.mapM (connectionGeom p.1 p.2 hx barWidth step pad))

/-! ## Helper lemmas -/

theorem okBind {ε α β : Type} (a : α) (f : α → Except ε β) :
    (Except.ok a >>= f) = f a := rfl

theorem errBind {ε α β : Type} (e : ε) (f : α → Except ε β) :
    ((Except.error e : Except ε α) >>= f) = .error e := rfl

theorem pureEq {ε α : Type} (a : α) : (pure a : Except ε α) = .ok a := rfl

theorem bindEqOk {ε α β : Type} {x : Except ε α} {f : α → Except ε β} {b : β}
    (h : (x >>= f) = .ok b) : ∃ a, x = .ok a ∧ f a = .ok b := by
  cases x with
  | ok a => exact ⟨a, rfl, h⟩
  | error e => exact absurd h (by rw [errBind]; exact fun hc => Except.noConfusion hc)

theorem stackSeries_length (l : List (String × ℚ)) :
    ∀ (acc : ℚ) (idx : Nat), (stackSeries acc idx l).length = l.length := by
  induction l with
  | nil => intro acc idx; rfl
  | cons p rest ih =>
      intro acc idx
      simp [stackSeries, ih]

theorem stackSeries_widths (l : List (String × ℚ)) :
    ∀ (acc : ℚ) (idx : Nat),
      (stackSeries acc idx l).map (fun e => e.hi - e.lo) = l.map Prod.snd := by
  induction l with
  | nil => intro acc idx; rfl
  | cons p rest ih =>
      intro acc idx
      simp [stackSeries, ih]

theorem stackSeries_get (l : List (String × ℚ)) :
    ∀ (acc : ℚ) (idx i : Nat) (h : i < (stackSeries acc idx l).length),
      ((stackSeries acc idx l).get ⟨i, h⟩).lo = acc + ((l.map Prod.snd).take i).sum ∧
      ((stackSeries acc idx l).get ⟨i, h⟩).hi =
        ((stackSeries acc idx l).get ⟨i, h⟩).lo + (l.map Prod.snd).getD i 0 ∧
      ((stackSeries acc idx l).get ⟨i, h⟩).index = idx + i := by
  induction l with
  | nil => intro acc idx i h; simp [stackSeries] at h
  | cons p rest ih =>
      intro acc idx i h
      match i with
      | 0 => simp [stackSeries]
      | Nat.succ j =>
          have h2 : j < (stackSeries (acc + p.2) (idx + 1) rest).length := by
            have := h
            simp [stackSeries] at this
            simpa [stackSeries_length] using this
          obtain ⟨h1, h2', h3⟩ := ih (acc + p.2) (idx + 1) j h2
          refine ⟨?_, ?_, ?_⟩
          · simpa [stackSeries, List.sum_cons, add_assoc] using h1
          · simpa [stackSeries] using h2'
          · simp only [List.get_eq_getElem] at h3
            simp [stackSeries, h3]
            omega

/-! ## C4: value ordering -/

/-- C4 (counterexample): on the value-tied mapping `{B: 1, a: 1}` the key
ordering `generateStackLayout` computes is `["a", "B"]` — the default-locale
collation of `localeCompare` puts `"a"` before `"B"` (primary weights: `a`
before `b`) — whereas ascending code-point order demands `"B"` (code point
66) before `"a"` (code point 97).  The computed sequence is strictly
*descending* in code-point order, so the claimed code-point tie-break fails. -/
theorem value_sorter_claim_cex :
    keysSorted [("B", 1), ("a", 1)] = ["a", "B"] ∧
    ("B" : String) < "a" ∧ ¬ (("a" : String) < "B") := by
  refine ⟨by decide, String.lt_iff_toList_lt.mpr (by decide),
    fun h => absurd (String.lt_iff_toList_lt.mp h) (by decide)⟩

/-- C4 (amended): the key ordering of `generateStackLayout` is a permutation
of the mapping's keys sorted by value descending with ties broken by key
ascending in the default-locale collation order of `localeCompare` (not
code-point order, which differs on mixed-case ties); the order is total, and
re-sorting a sorted sequence is the identity (idempotence). -/
theorem value_sorter_spec (data : Mapping) :
    (keysSorted data).Perm (data.map Prod.fst) ∧
    List.Sorted sortRel (sortedPairs data) ∧
    sortedPairs (sortedPairs data) = sortedPairs data ∧
    (∀ a b : String × ℚ, sortRel a b ∨ sortRel b a) := by
  refine ⟨?_, ?_, ?_, ?_⟩
  · exact (List.perm_insertionSort sortRel data).map Prod.fst
  · exact List.sorted_insertionSort sortRel data
  · exact (List.sorted_insertionSort sortRel data).insertionSort_eq
  · intro a b
    exact total_of sortRel a b

/-! ## C2: padding resolver -/

/-- C2: the effective padding equals the requested `P` exactly when
`P × (M − 1) < H`, otherwise `(H / M) × 0.2`; in all cases the effective
padding satisfies `effective × (M − 1) < H` or `M ≤ 1`; and the constructor
stores this globally resolved value (computed before any per-stack layout). -/
theorem padding_resolver_spec (P H : ℚ) (M : Nat) (hH : 0 < H) :
    (P * ((M : ℚ) - 1) < H → effectivePadding P H M = P) ∧
    (¬ P * ((M : ℚ) - 1) < H → effectivePadding P H M = H / (M : ℚ) * (0.2 : ℚ)) ∧
    (effectivePadding P H M * ((M : ℚ) - 1) < H ∨ M ≤ 1) ∧
    (∀ (r : RawInput) (ss : List (String × Mapping)) (c : Ctor),
      r.stacksField = some ss → maxKeyCount ss = some M →
      construct (some r) P H = .ok c → c.paddingStackCell = effectivePadding P H M) := by
  refine ⟨?_, ?_, ?_, ?_⟩
  · intro hg; simp [effectivePadding, hg]
  · intro hg; simp [effectivePadding, hg]
  · by_cases hg : P * ((M : ℚ) - 1) < H
    · left; rw [effectivePadding, if_pos hg]; exact hg
    · rcases le_or_lt M 1 with h1 | h1
      · right; exact h1
      · left
        have hM2 : (2 : ℚ) ≤ (M : ℚ) := by exact_mod_cast h1
        have hM0 : (0 : ℚ) < (M : ℚ) := by linarith
        rw [effectivePadding, if_neg hg, div_mul_eq_mul_div, div_mul_eq_mul_div,
          div_lt_iff₀ hM0]
        nlinarith [mul_pos hH (show (0 : ℚ) < (0.8 : ℚ) * (M : ℚ) + (0.2 : ℚ) by nlinarith)]
  · intro r ss c hss hM hc
    rw [construct] at hc
    simp only [orThrow, okBind, hss, hM] at hc
    obtain ⟨st, _, hc2⟩ := bindEqOk hc
    obtain ⟨sts, _, hc3⟩ := bindEqOk hc2
    obtain ⟨paths, _, hc4⟩ := bindEqOk hc3
    rw [pureEq] at hc4
    injection hc4 with hc5
    rw [← hc5]

/-- Witness for `padding_resolver_spec` at `P = 12`, `H = 600`, `M = 3`. -/
theorem padding_resolver_spec_witness :
    effectivePadding 12 600 3 = 12 ∧ effectivePadding 12 600 3 * ((3 : ℚ) - 1) < 600 := by
  have h := padding_resolver_spec 12 600 3 (by norm_num)
  refine ⟨h.1 (by push_cast; norm_num), ?_⟩
  have h3 := h.2.2.1
  push_cast at h3 ⊢
  exact h3.resolve_right (by norm_num)

/-! ## C8: cumulative intervals and totals -/

/-- C8: for a non-empty value mapping, `generateStackLayout` produces a
series whose item `i` has the interval
`[sum of preceding sorted values, that sum + value i]` and rank `i`; the sum
of all interval widths equals `totalValues`, which equals the sum of all item
values; an empty mapping yields the `null` sentinel (whose orchestrator total
is 0). -/
theorem stack_intervals_spec (data : Mapping) (pad H : ℚ) :
    (data = [] → generateStackLayout data pad H = none) ∧
    (data ≠ [] → ∃ st, generateStackLayout data pad H = some st ∧
      st.series.length = data.length ∧
      (∀ i (h : i < st.series.length),
        (st.series.get ⟨i, h⟩).lo = (((sortedPairs data).map Prod.snd).take i).sum ∧
        (st.series.get ⟨i, h⟩).hi =
          (st.series.get ⟨i, h⟩).lo + ((sortedPairs data).map Prod.snd).getD i 0 ∧
        (st.series.get ⟨i, h⟩).index = i) ∧
      (st.series.map (fun e => e.hi - e.lo)).sum = st.totalValues ∧
      st.totalValues = (data.map Prod.snd).sum) := by
  constructor
  · intro he; simp [generateStackLayout, he]
  · intro hne
    refine ⟨_, by rw [generateStackLayout, if_neg hne], ?_, ?_, ?_, ?_⟩
    · simp only [stackSeries_length, sortedPairs, List.length_insertionSort]
    · intro i h
      have hg := stackSeries_get (sortedPairs data) 0 0 i h
      simpa using hg
    · simp only [stackSeries_widths]
      exact ((List.perm_insertionSort sortRel data).map Prod.snd).sum_eq
    · rfl

/-- Witness for `stack_intervals_spec` at the mapping `{a: 1, b: 2}`. -/
theorem stack_intervals_spec_witness :
    ∃ st, generateStackLayout [("a", 1), ("b", 2)] 1 100 = some st ∧
      st.series.length = ([("a", (1 : ℚ)), ("b", 2)] : Mapping).length ∧
      (∀ i (h : i < st.series.length),
        (st.series.get ⟨i, h⟩).lo =
          (((sortedPairs [("a", 1), ("b", 2)]).map Prod.snd).take i).sum ∧
        (st.series.get ⟨i, h⟩).hi =
          (st.series.get ⟨i, h⟩).lo +
            ((sortedPairs [("a", 1), ("b", 2)]).map Prod.snd).getD i 0 ∧
        (st.series.get ⟨i, h⟩).index = i) ∧
      (st.series.map (fun e => e.hi - e.lo)).sum = st.totalValues ∧
      st.totalValues = (([("a", (1 : ℚ)), ("b", 2)] : Mapping).map Prod.snd).sum :=
  (stack_intervals_spec [("a", 1), ("b", 2)] 1 100).2 (by decide)

/-! ## C10: key-count validity check of the data getter -/

theorem getDataLoop_no_connections (r : RawInput) (pad H : ℚ)
    (hc : r.connectionsField = none) :
    ∀ ss : List (String × Mapping), (∃ p ∈ ss, p.2 ≠ []) →
      getDataLoop r pad H ss = .error .typeError := by
  intro ss
  induction ss with
  | nil => rintro ⟨p, hp, _⟩; cases hp
  | cons s rest ih =>
      rintro ⟨p, hp, hpne⟩
      by_cases hs : s.2 = []
      · have hrest : ∃ p ∈ rest, p.2 ≠ [] := by
          rcases List.mem_cons.mp hp with h | h
          · exact absurd (h ▸ hs) hpne
          · exact ⟨p, h, hpne⟩
        rw [getDataLoop, processStack]
        rw [generateStackLayout, if_pos hs]
        rw [pureEq, okBind, ih hrest, errBind]
      · rw [getDataLoop, processStack, generateStackLayout, if_neg hs]
        simp only [hc, orThrow, errBind]

/-- C10 (implicit behaviour of `get data`): validity is decided solely by the
top-level key count.  A missing data source or any key count other than two
returns the `null` sentinel; any object with exactly two top-level keys —
whatever their names — is accepted, its `stacks` field is iterated (throwing
when absent), and its `connections` field is dereferenced as soon as some
stack has a non-empty mapping (throwing when absent). -/
theorem data_getter_key_count_spec :
    (∀ pad H : ℚ, getData none pad H = .ok none) ∧
    (∀ (r : RawInput) (pad H : ℚ), r.keyCount ≠ 2 →
      getData (some r) pad H = .ok none) ∧
    (∀ (r : RawInput) (pad H : ℚ), r.keyCount = 2 → r.stacksField = none →
      getData (some r) pad H = .error .typeError) ∧
    (∀ (r : RawInput) (pad H : ℚ) (ss : List (String × Mapping)) (p : String × Mapping),
      r.keyCount = 2 → r.stacksField = some ss → r.connectionsField = none →
      p ∈ ss → p.2 ≠ [] → getData (some r) pad H = .error .typeError) := by
  refine ⟨fun _ _ => rfl, ?_, ?_, ?_⟩
  · intro r pad H hk
    simp [getData, hk]
  · intro r pad H hk hs
    simp [getData, hk, hs, orThrow, errBind]
  · intro r pad H ss p hk hs hc hp hpne
    rw [getData]
    simp only [hk, if_pos, hs, orThrow, okBind]
    rw [getDataLoop_no_connections r pad H hc ss ⟨p, hp, hpne⟩, errBind]

/-- Witness for `data_getter_key_count_spec`: a three-key object (valid
`stacks` and `connections` plus an extra field) is rejected; a two-key object
with neither meaningful field throws on the `stacks` iteration; a two-key
object missing `connections` throws on its dereference. -/
theorem data_getter_key_count_spec_witness :
    getData (some ⟨some [("s1", [("a", 1)])], some [], ["extra"]⟩) 12 600 = .ok none ∧
    getData (some ⟨none, none, ["k1", "k2"]⟩) 12 600 = .error .typeError ∧
    getData (some ⟨some [("s1", [("a", 1)])], none, ["extra"]⟩) 12 600 = .error .typeError :=
  ⟨data_getter_key_count_spec.2.1 _ 12 600 (by decide),
   data_getter_key_count_spec.2.2.1 _ 12 600 (by decide) rfl,
   data_getter_key_count_spec.2.2.2 _ 12 600 _ ("s1", [("a", 1)]) (by decide) rfl rfl
     (by decide) (by decide)⟩

/-! ## Concrete pipeline inputs from the spec's examples -/

/-- Four single-item stacks whose filtered edges form the chain
`a→b`, `b→c`, `c→d`. -/
def rawChain : RawInput :=
  { stacksField :=
      some [("s1", [("a", 1)]), ("s2", [("b", 1)]), ("s3", [("c", 1)]), ("s4", [("d", 1)])]
    connectionsField := some [⟨"a", "b", none⟩, ⟨"b", "c", none⟩, ⟨"c", "d", none⟩]
    extraKeys := [] }

/-- Stacks whose filtered edges form the branch `a→b`, `a→c` out of one stack. -/
def rawBranch : RawInput :=
  { stacksField := some [("s1", [("a", 1)]), ("s2", [("b", 1), ("c", 2)])]
    connectionsField := some [⟨"a", "b", none⟩, ⟨"a", "c", none⟩]
    extraKeys := [] }

/-! ## C1: connection-path derivation on the spec's examples -/

/-- C1 (failing evaluation): on the branch `a→b`, `a→c` the pruning loop of
`generateConnectionPaths` discards both maximal paths — the constructor's
retained path set is empty, not the expected set of the two branch paths. -/
theorem branch_paths_empty :
    (construct (some rawBranch) defaultPaddingStackCell defaultHeight).map
      Ctor.connectionPaths = .ok [] := by decide

/-! ## C5: maximal-path pruning invariant -/

/-- C5 (failing evaluation): on the chain `a→b`, `b→c`, `c→d` the retained
path list keeps the stale candidate `"a.b.c"` — a proper prefix (and
substring) of the also-retained `"a.b.c.d"` — and even duplicates the
maximal path. -/
theorem chain_paths_keep_prefix :
    (construct (some rawChain) defaultPaddingStackCell defaultHeight).map
      Ctor.connectionPaths = .ok ["a.b.c", "a.b.c.d", "a.b.c.d"] ∧
    strHasSub "a.b.c.d" "a.b.c" = true ∧
    ("a.b.c" : String).length < ("a.b.c.d" : String).length := by
  refine ⟨by decide, by decide, by decide⟩

/-! ## C6: missing top-level fields make the derivation throw -/

/-- C6 (failing evaluation): with no data source at all (the repository's own
`new StackedConnections()` test), the constructor throws a `TypeError` at
`this.dataSource.stacks`; with an input holding only `stacks` (missing
`connections`), `get data` returns the `null` sentinel and the constructor
then throws at `generateConnectionPaths(null)` — instead of the sentinel,
never-throwing behaviour the claim describes. -/
theorem missing_field_constructor_throws :
    construct none defaultPaddingStackCell defaultHeight = .error .typeError ∧
    construct (some ⟨some [("s1", [("a", 1)])], none, []⟩) defaultPaddingStackCell
      defaultHeight = .error .typeError := by
  refine ⟨by decide, by decide⟩

/-! ## C9: an unresolvable target aborts the whole render -/

/-- Two stacks and one connection whose target key exists in no stack. -/
def rawDangling : RawInput :=
  { stacksField := some [("s1", [("a", 1)]), ("s2", [("b", 1)])]
    connectionsField := some [⟨"a", "zzz", none⟩]
    extraKeys := [] }

/-- C9 (failing evaluation): derivation succeeds and retains the edge
`a→zzz` (its source exists), but at geometry-build time the lookup of target
`"zzz"` in the next stack's series yields `undefined`, the `[0]` access
throws, and the exception propagates out of the whole connection traversal —
for every horizontal-scale configuration, the render aborts instead of
failing only that one connector. -/
theorem dangling_target_aborts_render (hx : String → ℚ) (bw step : ℚ) :
    ((construct (some rawDangling) defaultPaddingStackCell defaultHeight).bind
      fun c => renderConnections c.stacks hx bw step c.paddingStackCell) =
      .error .typeError := by
  rfl

/-! ## C3: connector geometry -/

/-- C3 (amended): the exact command list emitted for a resolved edge.
`sourceX` is the right edge of the source band and `targetX` the left edge of
the target band; every anchor Y is `verticalScale(intervalBound) +
padding × itemIndex`; both curves' control points sit half an inter-band step
horizontally from their endpoints; the first curve's control points are at
the top-Y heights, and the return curve's control points are at the heights
`targetTopY` (not `targetBottomY`) and `sourceBottomY`. -/
theorem connector_geometry_spec (src tgt : StackResult) (hx : String → ℚ)
    (bw step pad : ℚ) (c : Connection) (sE tE : SeriesEntry) (sSc tSc : ScaleDesc)
    (hs : src.series.find? (fun x => x.key == c.source) = some sE)
    (ht : tgt.series.find? (fun x => x.key == c.target) = some tE)
    (hsc : src.scale = some sSc) (htc : tgt.scale = some tSc) :
    connectionGeom src tgt hx bw step pad c =
      .ok [ .moveTo (hx src.key + bw)
              (scaleApply sSc sE.lo + pad * (sE.index : ℚ))
          , .bezierCurveTo (hx src.key + bw + step / 2)
              (scaleApply sSc sE.lo + pad * (sE.index : ℚ))
              (hx tgt.key - step / 2)
              (scaleApply tSc tE.lo + pad * (tE.index : ℚ))
              (hx tgt.key)
              (scaleApply tSc tE.lo + pad * (tE.index : ℚ))
          , .lineTo (hx tgt.key)
              (scaleApply tSc tE.hi + pad * (tE.index : ℚ))
          , .bezierCurveTo (hx tgt.key - step / 2)
              (scaleApply tSc tE.lo + pad * (tE.index : ℚ))
              (hx src.key + bw + step / 2)
              (scaleApply sSc sE.hi + pad * (sE.index : ℚ))
              (hx src.key + bw)
              (scaleApply sSc sE.hi + pad * (sE.index : ℚ))
          , .closePath ] := by
  rw [connectionGeom, hs, ht, hsc, htc]
  rfl

/-- A resolved source stack for the geometry examples: items `b` (value 2,
rank 0) and `a` (value 1, rank 1), total 3, vertical range `[0, 60]`. -/
def geomSource : StackResult :=
  { connections := some [⟨"b", "d", none⟩]
    key := "s1"
    scale := some ⟨3, 60⟩
    series := [⟨"b", 0, 2, 0⟩, ⟨"a", 2, 3, 1⟩]
    totalValues := 3 }

/-- The matching resolved target stack: items `d` (rank 0) and `c` (rank 1). -/
def geomTarget : StackResult :=
  { connections := some []
    key := "s2"
    scale := some ⟨3, 60⟩
    series := [⟨"d", 0, 2, 0⟩, ⟨"c", 2, 3, 1⟩]
    totalValues := 3 }

/-- The horizontal band lookup of the geometry examples: band `s1` at 0,
band `s2` at 300. -/
def geomHx : String → ℚ := fun k => if k = "s2" then 300 else 0

/-- C3 (counterexample): for the resolved edge `b→d` with `barWidth = 30`,
`step = 300`, padding 12, the emitted return curve's first control point sits
at the height `targetTopY = 0`, not at `targetBottomY = 40` as the claim
states — the command list the claim describes is not the one produced. -/
theorem connector_geometry_claim_cex :
    connectionGeom geomSource geomTarget geomHx 30 300 12 ⟨"b", "d", none⟩ =
      .ok [ .moveTo 30 0
          , .bezierCurveTo 180 0 150 0 300 0
          , .lineTo 300 40
          , .bezierCurveTo 150 0 180 40 30 40
          , .closePath ] ∧
    connectionGeom geomSource geomTarget geomHx 30 300 12 ⟨"b", "d", none⟩ ≠
      .ok [ .moveTo 30 0
          , .bezierCurveTo 180 0 150 0 300 0
          , .lineTo 300 40
          , .bezierCurveTo 150 40 180 40 30 40
          , .closePath ] := by
  have hact : connectionGeom geomSource geomTarget geomHx 30 300 12 ⟨"b", "d", none⟩ =
      .ok [ .moveTo 30 0
          , .bezierCurveTo 180 0 150 0 300 0
          , .lineTo 300 40
          , .bezierCurveTo 150 0 180 40 30 40
          , .closePath ] := by
    simp only [connectionGeom, geomSource, geomTarget, geomHx, List.find?, orThrow,
      okBind, pureEq, scaleApply]
    norm_num [okBind, pureEq]
    refine ⟨by decide, ?_, by decide⟩
    rw [if_neg (by decide : ¬ ("s1" : String) = "s2")]
    norm_num
  refine ⟨hact, fun hEq => ?_⟩
  rw [hact] at hEq
  injection hEq with hl
  simp only [List.cons.injEq, PathCmd.bezierCurveTo.injEq] at hl
  have h40 : (0 : ℚ) = 40 := hl.2.2.2.1.2.1
  norm_num at h40

/-- Witness for `connector_geometry_spec` on the edge `b→d` of the
concrete resolved stacks. -/
theorem connector_geometry_spec_witness :
    connectionGeom geomSource geomTarget geomHx 30 300 12 ⟨"b", "d", none⟩ =
      .ok [ .moveTo (geomHx geomSource.key + 30)
              (scaleApply ⟨3, 60⟩ 0 + 12 * ((0 : Nat) : ℚ))
          , .bezierCurveTo (geomHx geomSource.key + 30 + 300 / 2)
              (scaleApply ⟨3, 60⟩ 0 + 12 * ((0 : Nat) : ℚ))
              (geomHx geomTarget.key - 300 / 2)
              (scaleApply ⟨3, 60⟩ 0 + 12 * ((0 : Nat) : ℚ))
              (geomHx geomTarget.key)
              (scaleApply ⟨3, 60⟩ 0 + 12 * ((0 : Nat) : ℚ))
          , .lineTo (geomHx geomTarget.key)
              (scaleApply ⟨3, 60⟩ 2 + 12 * ((0 : Nat) : ℚ))
          , .bezierCurveTo (geomHx geomTarget.key - 300 / 2)
              (scaleApply ⟨3, 60⟩ 0 + 12 * ((0 : Nat) : ℚ))
              (geomHx geomSource.key + 30 + 300 / 2)
              (scaleApply ⟨3, 60⟩ 2 + 12 * ((0 : Nat) : ℚ))
              (geomHx geomSource.key + 30)
              (scaleApply ⟨3, 60⟩ 2 + 12 * ((0 : Nat) : ℚ))
          , .closePath ] :=
  connector_geometry_spec geomSource geomTarget geomHx 30 300 12 ⟨"b", "d", none⟩
    ⟨"b", 0, 2, 0⟩ ⟨"d", 0, 2, 0⟩ ⟨3, 60⟩ ⟨3, 60⟩ (by decide) (by decide) rfl rfl

/-! ## C7: closed contour; vertical ordering of connector anchors -/

/-- C7 (amended): every successfully emitted connector path is a single
closed contour (one `moveTo` opening it, one terminal `closePath`), including
for zero-height items; and for a stack layout built from non-negative item
values whose vertical-scale range height `H − pad·count − headerPad` is
non-negative, every item's top anchor Y is at most its bottom anchor Y
(the claim omits the range-height proviso, without which the ordering fails —
see the counterexample). -/
theorem connector_contour_spec :
    (∀ (src tgt : StackResult) (hx : String → ℚ) (bw step pad : ℚ) (c : Connection)
        (L : List PathCmd), connectionGeom src tgt hx bw step pad c = .ok L →
      (∃ x y, L.head? = some (.moveTo x y)) ∧ L.getLast? = some .closePath ∧
      L.countP PathCmd.isMove = 1 ∧ L.countP PathCmd.isClose = 1) ∧
    (∀ (m : Mapping) (pad H : ℚ) (st : StackLayoutRes) (e : SeriesEntry),
      (∀ p ∈ m, 0 ≤ p.2) → 0 ≤ H - pad * (m.length : ℚ) - headerPad →
      generateStackLayout m pad H = some st → e ∈ st.series →
      scaleApply st.scale e.lo + pad * (e.index : ℚ) ≤
        scaleApply st.scale e.hi + pad * (e.index : ℚ)) := by
  constructor
  · intro src tgt hx bw step pad c L h
    rw [connectionGeom] at h
    obtain ⟨sE, _, h⟩ := bindEqOk h
    obtain ⟨tE, _, h⟩ := bindEqOk h
    obtain ⟨sSc, _, h⟩ := bindEqOk h
    obtain ⟨tSc, _, h⟩ := bindEqOk h
    rw [pureEq] at h
    injection h with h
    rw [← h]
    refine ⟨⟨_, _, rfl⟩, rfl, ?_, ?_⟩ <;>
      simp [List.countP_cons, PathCmd.isMove, PathCmd.isClose]
  · intro m pad H st e hvals hR hgen hmem
    by_cases hm : m = []
    · rw [generateStackLayout, if_pos hm] at hgen
      exact absurd hgen (fun hc => Option.noConfusion hc)
    · rw [generateStackLayout, if_neg hm] at hgen
      injection hgen with hgen
      have hwidth : e.hi - e.lo ∈ (sortedPairs m).map Prod.snd := by
        have hw := stackSeries_widths (sortedPairs m) 0 0
        have hmem2 : e ∈ stackSeries 0 0 (sortedPairs m) := by
          rw [← hgen] at hmem; exact hmem
        exact hw ▸ List.mem_map_of_mem (fun x => x.hi - x.lo) hmem2
      have hval : e.hi - e.lo ∈ m.map Prod.snd :=
        ((List.perm_insertionSort sortRel m).map Prod.snd).subset hwidth
      have hnn : (0 : ℚ) ≤ e.hi - e.lo := by
        obtain ⟨p, hp, hpe⟩ := List.mem_map.mp hval
        exact hpe ▸ hvals p hp
      have hlohi : e.lo ≤ e.hi := by linarith
      have hSnn : (0 : ℚ) ≤ (m.map Prod.snd).sum :=
        List.sum_nonneg (fun x hx => by
          obtain ⟨p, hp, hpe⟩ := List.mem_map.mp hx
          exact hpe ▸ hvals p hp)
      have hscale : st.scale =
          ⟨(m.map Prod.snd).sum, H - pad * (((sortedPairs m).length : Nat) : ℚ) - headerPad⟩ := by
        rw [← hgen]
      have hRnn : (0 : ℚ) ≤ st.scale.rangeHi := by
        rw [hscale]
        simpa [sortedPairs, List.length_insertionSort] using hR
      apply add_le_add_right
      rw [scaleApply, scaleApply]
      by_cases hS : st.scale.total = 0
      · rw [if_pos hS, if_pos hS]
      · rw [if_neg hS, if_neg hS]
        have hSnn2 : (0 : ℚ) ≤ st.scale.total := by rw [hscale]; exact hSnn
        have hSpos : (0 : ℚ) < st.scale.total := by
          rcases lt_or_eq_of_le hSnn2 with h | h
          · exact h
          · exact absurd h.symm hS
        rw [div_le_div_iff_of_pos_right hSpos]
        exact mul_le_mul_of_nonneg_right hlohi hRnn

/-- The stack layout `generateStackLayout` builds from `{a: 1, b: 2}` with
padding 99 and artboard height 100: a negative vertical-scale range. -/
def layoutSteep : StackLayoutRes :=
  ⟨[⟨"b", 0, 2, 0⟩, ⟨"a", 2, 3, 1⟩], ⟨3, -130⟩, 3⟩

/-- Source/target stack results carrying `layoutSteep`, as `get data` shapes
them for the edge `b→d`. -/
def steepSource : StackResult :=
  { connections := some [⟨"b", "d", none⟩]
    key := "s1"
    scale := some ⟨3, -130⟩
    series := [⟨"b", 0, 2, 0⟩, ⟨"a", 2, 3, 1⟩]
    totalValues := 3 }

/-- The matching target stack (`{c: 1, d: 2}` under the same scale). -/
def steepTarget : StackResult :=
  { connections := some []
    key := "s2"
    scale := some ⟨3, -130⟩
    series := [⟨"d", 0, 2, 0⟩, ⟨"c", 2, 3, 1⟩]
    totalValues := 3 }

/-- C7 (counterexample): with requested padding 99 and artboard height 100 —
a combination the padding resolver accepts, since `99 × (2−1) < 100` — the
non-negative mapping `{a: 1, b: 2}` yields a vertical scale with range
`[0, −130]`, and the connector for the resolved edge `b→d` starts at top
anchor Y = 0 yet closes at bottom anchor Y = −260/3 < 0: the claimed
`top Y ≤ bottom Y` fails at both ends. -/
theorem connector_vertical_order_claim_cex :
    effectivePadding 99 100 2 = 99 ∧
    generateStackLayout [("a", 1), ("b", 2)] 99 100 = some layoutSteep ∧
    (∀ p ∈ ([("a", (1 : ℚ)), ("b", 2)] : Mapping), 0 ≤ p.2) ∧
    connectionGeom steepSource steepTarget geomHx 30 300 99 ⟨"b", "d", none⟩ =
      .ok [ .moveTo 30 0
          , .bezierCurveTo 180 0 150 0 300 0
          , .lineTo 300 (-260 / 3)
          , .bezierCurveTo 150 0 180 (-260 / 3) 30 (-260 / 3)
          , .closePath ] ∧
    ¬ (scaleApply ⟨3, -130⟩ 0 + 99 * ((0 : Nat) : ℚ) ≤
        scaleApply ⟨3, -130⟩ 2 + 99 * ((0 : Nat) : ℚ)) := by
  refine ⟨?_, ?_, ?_, ?_, ?_⟩
  · rw [effectivePadding, if_pos (by norm_num)]
  · rw [generateStackLayout, if_neg (by simp)]
    norm_num [sortedPairs, List.insertionSort, List.orderedInsert, sortRel,
      stackSeries, headerPad, artboardUnit, layoutSteep]
  · intro p hp
    rcases List.mem_cons.mp hp with h | h
    · rw [h]; norm_num
    · rcases List.mem_cons.mp h with h2 | h2
      · rw [h2]; norm_num
      · cases h2
  · simp only [connectionGeom, steepSource, steepTarget, geomHx, List.find?, orThrow,
      okBind, pureEq, scaleApply]
    norm_num [okBind, pureEq]
    refine ⟨by decide, ?_, by decide⟩
    rw [if_neg (by decide : ¬ ("s1" : String) = "s2")]
    norm_num
  · rw [scaleApply, scaleApply, if_neg (by norm_num), if_neg (by norm_num)]
    norm_num

/-- Witness for `connector_contour_spec`: part one applied to the
`geomSource`/`geomTarget` edge, part two applied to the layout of
`{a: 1, b: 2}` with padding 1 and height 100 (range `[0, 66]`) at the item
`b`. -/
theorem connector_contour_spec_witness :
    ((∃ x y, ([ PathCmd.moveTo 30 0
              , PathCmd.bezierCurveTo 180 0 150 0 300 0
              , PathCmd.lineTo 300 40
              , PathCmd.bezierCurveTo 150 0 180 40 30 40
              , PathCmd.closePath ] : List PathCmd).head? = some (.moveTo x y)) ∧
      ([ PathCmd.moveTo 30 0
       , PathCmd.bezierCurveTo 180 0 150 0 300 0
       , PathCmd.lineTo 300 40
       , PathCmd.bezierCurveTo 150 0 180 40 30 40
       , PathCmd.closePath ] : List PathCmd).getLast? = some .closePath ∧
      ([ PathCmd.moveTo 30 0
       , PathCmd.bezierCurveTo 180 0 150 0 300 0
       , PathCmd.lineTo 300 40
       , PathCmd.bezierCurveTo 150 0 180 40 30 40
       , PathCmd.closePath ] : List PathCmd).countP PathCmd.isMove = 1 ∧
      ([ PathCmd.moveTo 30 0
       , PathCmd.bezierCurveTo 180 0 150 0 300 0
       , PathCmd.lineTo 300 40
       , PathCmd.bezierCurveTo 150 0 180 40 30 40
       , PathCmd.closePath ] : List PathCmd).countP PathCmd.isClose = 1) ∧
    scaleApply (⟨3, 66⟩ : ScaleDesc) 0 + 1 * ((0 : Nat) : ℚ) ≤
      scaleApply (⟨3, 66⟩ : ScaleDesc) 2 + 1 * ((0 : Nat) : ℚ) := by
  constructor
  · refine connector_contour_spec.1 geomSource geomTarget geomHx 30 300 12
      ⟨"b", "d", none⟩ _ ?_
    simp only [connectionGeom, geomSource, geomTarget, geomHx, List.find?, orThrow,
      okBind, pureEq, scaleApply]
    norm_num [okBind, pureEq]
    refine ⟨by decide, ?_, by decide⟩
    rw [if_neg (by decide : ¬ ("s1" : String) = "s2")]
    norm_num
  · refine connector_contour_spec.2 [("a", 1), ("b", 2)] 1 100
      ⟨[⟨"b", 0, 2, 0⟩, ⟨"a", 2, 3, 1⟩], ⟨3, 66⟩, 3⟩ ⟨"b", 0, 2, 0⟩ ?_ ?_ ?_ ?_
    · intro p hp
      rcases List.mem_cons.mp hp with h | h
      · rw [h]; norm_num
      · rcases List.mem_cons.mp h with h2 | h2
        · rw [h2]; norm_num
        · cases h2
    · norm_num [headerPad, artboardUnit]
    · rw [generateStackLayout, if_neg (by simp)]
      norm_num [sortedPairs, List.insertionSort, List.orderedInsert, sortRel,
        stackSeries, headerPad, artboardUnit]
    · simp

end StackedConnections
